import Mathlib

/-!
Shallow embedding of the apple-alert price-watch script (src/apple-alert.py)
and verification of its specification.

Modelling conventions:
* Prices are rationals (the script parses decimal price strings).
* A markup "product tile" (a div carrying both a data-price and a data-name
  attribute, as located by the soup query on line 97 of the source) is an
  `Element` record holding the four data attributes the script reads;
  absent data-variant / data-category attributes are the empty string,
  matching the source's get defaults.
* A fetched page is a `Page`: its raw text together with the list of product
  tiles the soup query finds in it (the HTML-parsing library itself is not
  re-implemented; its output is a field of the page).
* The network is an oracle mapping the attempt index to the outcome of that
  attempt: some page on HTTP success, none on a timeout or request error
  (the two are distinguished by the source only for logging).
* The SMTP transport is modelled by a boolean saying whether the
  connect/starttls/login/sendmail/quit sequence succeeds; the credential is
  an optional string mirroring os.getenv.
* Every function is total, mirroring the script's guarantee that no
  exception escapes its top-level functions.
-/

namespace AppleAlert

/-! ### Configuration constants (source lines 18-27) -/

/-- Alert threshold MIN_PRICE_PER_LB = 1.50 (line 19). -/
def MIN_PRICE_PER_LB : ℚ := 3 / 2

/-- EMAIL_TO (line 20). -/
def EMAIL_TO : String := "sean@carolan.io"

/-- EMAIL_FROM (line 21). -/
def EMAIL_FROM : String := "sean@carolan.io"

/-- ONLY_IN_SEASON (line 25). -/
def ONLY_IN_SEASON : Bool := true

/-- SEASON_MONTHS = the set containing 8, 9, 10 (line 26); a Python set used
only for membership tests, embedded as a list. -/
def SEASON_MONTHS : List Nat := [8, 9, 10]

/-- The max_retries constant local to search_hannaford_apples (line 57). -/
def max_retries : Nat := 3

/-! ### String primitives used by the script -/

/-- Python str.lower, applied characterwise. -/
def lowerStr (s : String) : String := ⟨s.data.map Char.toLower⟩

/-- The name decoding name.replace of a plus sign by a space (line 102);
a single-character replacement is a characterwise map. -/
def decodePlus (s : String) : String :=
  ⟨s.data.map fun c => if c = '+' then ' ' else c⟩

/-- Python substring membership (the in operator) on character lists. -/
def hasSubList (needle : List Char) : List Char → Bool
  | [] => needle.isEmpty
  | c :: rest => needle.isPrefixOf (c :: rest) || hasSubList needle rest

/-- Python substring membership on strings. -/
def containsSub (needle hay : String) : Bool :=
  hasSubList needle.data hay.data

/-- Value of a digit list read in base 10. -/
def digitsToNat (l : List Char) : Nat :=
  l.foldl (fun a c => a * 10 + (c.toNat - 48)) 0

/-- Python float applied to a price string (line 113): parses an optional
sign followed by a plain decimal literal, returning none when parsing fails
(the source then skips the element).  Scientific notation, infinities and
surrounding whitespace, which Python float would also accept, do not occur
in price attributes and are out of scope of this model. -/
def parseDecimal (s : String) : Option ℚ :=
  let rest := s.data
  let sign : ℚ := if rest.head? = some '-' then -1 else 1
  let rest := if rest.head? = some '-' ∨ rest.head? = some '+' then rest.tail else rest
  let intPart := rest.takeWhile Char.isDigit
  let rest := rest.dropWhile Char.isDigit
  match rest with
  | [] =>
    if intPart.isEmpty then none
    else some (sign * digitsToNat intPart)
  | '.' :: frac =>
    if frac.all Char.isDigit ∧ ¬(intPart.isEmpty ∧ frac.isEmpty) then
      some (sign * ((digitsToNat intPart : ℚ) + (digitsToNat frac : ℚ) / 10 ^ frac.length))
    else none
  | _ => none

/-! ### Data model -/

/-- One product tile: the data attributes read on lines 102-105.  The
data-name and data-price attributes are present by construction (the soup
query requires them); variant and category default to the empty string. -/
structure Element where
  name : String
  price : String
  variant : String
  category : String
deriving DecidableEq, Repr

/-- A Deal record as built on lines 124-131. -/
structure Deal where
  name : String
  price : ℚ
  variant : String
  category : String
  is_per_lb : Bool
  unit_price : Option ℚ
deriving DecidableEq, Repr

/-- A fetched page: its raw text plus the product tiles the soup query
finds in it. -/
structure Page where
  content : String
  elements : List Element
deriving DecidableEq, Repr

/-! ### Extractor (parse_apple_deals, lines 88-137) -/

/-- The relevance test on line 108: the element is kept when the decoded
name or the category contains the substring apple, case-insensitively
(the source skips when both lack it). -/
def appleRelated (e : Element) : Bool :=
  containsSub "apple" (lowerStr (decodePlus e.name)) ||
    containsSub "apple" (lowerStr e.category)

/-- The per-pound test on line 118: the variant label contains lb or
pound, case-insensitively. -/
def perLb (e : Element) : Bool :=
  containsSub "lb" (lowerStr e.variant) || containsSub "pound" (lowerStr e.variant)

/-- The body of the per-product loop (lines 99-135): returns the Deal
appended for this tile, or none when the tile is skipped (not
apple-related, or unparseable price). -/
def extractDeal (e : Element) : Option Deal :=
  if !appleRelated e then none
  else
    match parseDecimal e.price with
    | none => none
    | some price =>
      some ⟨decodePlus e.name, price, e.variant, e.category, perLb e,
        if perLb e then some price else none⟩

/-- parse_apple_deals: empty-input guard (lines 90-91; Python falsiness of
the argument covers both None and the empty string), then the per-tile
loop accumulating deals. -/
def parse_apple_deals (html_content : Option Page) : List Deal :=
  match html_content with
  | none => []
  | some page =>
    if page.content = "" then []
    else page.elements.filterMap extractDeal

/-! ### Filter (filter_qualifying_deals, lines 139-152) -/

/-- filter_qualifying_deals: skip deals with unknown unit price, keep those
at or below the threshold. -/
def filter_qualifying_deals : List Deal → List Deal
  | [] => []
  | d :: rest =>
    match d.unit_price with
    | none => filter_qualifying_deals rest
    | some up =>
      if up ≤ MIN_PRICE_PER_LB then d :: filter_qualifying_deals rest
      else filter_qualifying_deals rest

/-! ### Season gate (in_season, lines 29-32) -/

/-- in_season: the wall clock month (dt.datetime.now().month) is passed in
as a parameter. -/
def in_season (month : Nat) : Bool := SEASON_MONTHS.contains month

/-! ### Fetcher (search_hannaford_apples, lines 34-86) -/

/-- The retry loop (lines 58-86): attempt is the current 0-based attempt
index, fuel the number of loop iterations left (range gives max_retries of
them).  On a successful response the text is returned at once; on timeout
or request error the loop moves to the next attempt; when the attempts are
exhausted the function returns None.  The second component counts the
attempts actually made.  Sleeps are timing only and have no effect on the
result. -/
def fetchLoop (outcomes : Nat → Option Page) : Nat → Nat → Option Page × Nat
  | attempt, 0 => (none, attempt)
  | attempt, fuel + 1 =>
    match outcomes attempt with
    | some p => (some p, attempt + 1)
    | none => fetchLoop outcomes (attempt + 1) fuel

/-- search_hannaford_apples: run the retry loop from attempt 0. -/
def search_hannaford_apples (outcomes : Nat → Option Page) : Option Page :=
  (fetchLoop outcomes 0 max_retries).1

/-- Number of network attempts the fetcher makes against this oracle. -/
def fetchAttempts (outcomes : Nat → Option Page) : Nat :=
  (fetchLoop outcomes 0 max_retries).2

/-! ### Notifier (send_alert_email, lines 154-189) -/

/-- Python falsiness of the EMAIL_PASSWORD configuration value: the
environment variable is unset or set to the empty string (line 156). -/
def pwFalsy : Option String → Bool
  | none => true
  | some s => s = ""

/-- Two-digit zero-padded rendering of a number below 100. -/
def pad2 (n : Nat) : String :=
  if n < 10 then "0" ++ toString n else toString n

/-- The .2f format specifier applied to a price: fixed two decimals.  The
model rounds half up; it agrees with Python for every amount that is a
whole number of cents, which every parsed price in scope is. -/
def formatUSD (q : ℚ) : String :=
  let cents := (⌊q * 100 + 1 / 2⌋).toNat
  toString (cents / 100) ++ "." ++ pad2 (cents % 100)

/-- The key-based comparison sorted uses on line 169: ascending by the
unit_price entry.  All deals reaching the Notifier are qualifying, so
unit_price is always present; the default 0 never actually applies (in
Python, a missing value there would raise inside sorted). -/
def dealLE (a b : Deal) : Bool :=
  decide (a.unit_price.getD 0 ≤ b.unit_price.getD 0)

/-- sorted(deals, key = unit price) on line 169: a stable sort by the unit
price, modelled by mergeSort. -/
def sortDeals (deals : List Deal) : List Deal :=
  deals.mergeSort dealLE

/-- One body line per deal (line 170). -/
def dealLine (d : Deal) : String :=
  "• $" ++ formatUSD (d.unit_price.getD 0) ++ "/lb - " ++ d.name ++ " (" ++ d.variant ++ ")\n"

/-- The fixed opening of the body (line 168). -/
def bodyIntro : String :=
  "Great news! We found some apple deals under $" ++ formatUSD MIN_PRICE_PER_LB ++ "/lb:\n\n"

/-- The closing of the body, ending in the send timestamp (line 172). -/
def bodyOutro (ts : String) : String :=
  "\nHappy shopping!\n\nSent at: " ++ ts

/-- The subject line (line 165). -/
def composeSubject (deals : List Deal) : String :=
  "🍎 Apple Deal Alert - " ++ toString deals.length ++ " deal(s) found!"

/-- The body: intro, then one line per deal in ascending unit-price order,
then the outro (lines 168-172).  ts stands for the formatted
dt.datetime.now() value. -/
def composeBody (deals : List Deal) (ts : String) : String :=
  ((sortDeals deals).foldl (fun b d => b ++ dealLine d) bodyIntro) ++ bodyOutro ts

/-- The composed message. -/
structure EmailMsg where
  sender : String
  recipient : String
  subject : String
  body : String
deriving DecidableEq, Repr

/-- send_alert_email.  password models the EMAIL_PASSWORD environment
lookup; smtpOk models whether the connect/starttls/login/sendmail/quit
sequence on lines 177-182 succeeds (its failure raises and is caught by
the handler on lines 187-189, which returns False).  Returns the boolean
result together with the message actually handed to the relay (none when
nothing was sent). -/
def send_alert_email (password : Option String) (smtpOk : Bool)
    (deals : List Deal) (ts : String) : Bool × Option EmailMsg :=
  if pwFalsy password then (false, none)
  else
    let msg : EmailMsg := ⟨EMAIL_FROM, EMAIL_TO, composeSubject deals, composeBody deals ts⟩
    if smtpOk then (true, some msg)
    else (false, none)

/-! ### Orchestration (main, lines 191-220) -/

/-- The environment one run of main observes: the wall-clock month, the
per-attempt network outcomes, the SMTP credential and transport outcome,
and the timestamp string. -/
structure World where
  month : Nat
  fetchOutcomes : Nat → Option Page
  smtpPassword : Option String
  smtpOk : Bool
  ts : String

/-- The observable outcome of a run: the process exit code, the number of
network attempts made, and whether the alert email went out. -/
structure RunResult where
  exitCode : Nat
  networkAttempts : Nat
  emailSent : Bool
deriving DecidableEq, Repr

/-- Python falsiness of the html_content value returned by the fetcher
(line 197): absent, or present with empty text. -/
def pageFalsy : Option Page → Bool
  | none => true
  | some p => p.content = ""

/-- main (lines 191-220).  sys.exit(n) is modelled by returning exit code
n; falling off the end of main exits the interpreter with code 0. -/
def main (w : World) : RunResult :=
  if ONLY_IN_SEASON && !in_season w.month then
    ⟨0, 0, false⟩
  else
    let html_content := search_hannaford_apples w.fetchOutcomes
    let attempts := fetchAttempts w.fetchOutcomes
    if pageFalsy html_content then ⟨1, attempts, false⟩
    else
      let deals := parse_apple_deals html_content
      if deals.isEmpty then ⟨1, attempts, false⟩
      else
        let qualifying := filter_qualifying_deals deals
        if qualifying.isEmpty then ⟨0, attempts, false⟩
        else
          let sent := (send_alert_email w.smtpPassword w.smtpOk qualifying w.ts).1
          ⟨0, attempts, sent⟩

/-! ### Helper lemmas -/

/-- Membership characterisation of the Filter: exactly the input deals
with a known unit price at or below the threshold survive. -/
theorem mem_filter_qualifying (deals : List Deal) (d : Deal) :
    d ∈ filter_qualifying_deals deals ↔
      d ∈ deals ∧ ∃ p, d.unit_price = some p ∧ p ≤ MIN_PRICE_PER_LB := by
  induction deals with
  | nil => simp [filter_qualifying_deals]
  | cons a l ih =>
    cases h : a.unit_price with
    | none =>
      simp only [filter_qualifying_deals, h, List.mem_cons, ih]
      constructor
      · rintro ⟨hm, hp⟩
        exact ⟨Or.inr hm, hp⟩
      · rintro ⟨hm | hm, p, hp1, hp2⟩
        · rw [hm, h] at hp1
          cases hp1
        · exact ⟨hm, p, hp1, hp2⟩
    | some p =>
      by_cases hp : p ≤ MIN_PRICE_PER_LB
      · simp only [filter_qualifying_deals, h, if_pos hp, List.mem_cons, ih]
        constructor
        · rintro (rfl | ⟨hm, hq⟩)
          · exact ⟨Or.inl rfl, p, h, hp⟩
          · exact ⟨Or.inr hm, hq⟩
        · rintro ⟨rfl | hm, hq⟩
          · exact Or.inl rfl
          · exact Or.inr ⟨hm, hq⟩
      · simp only [filter_qualifying_deals, h, if_neg hp, List.mem_cons, ih]
        constructor
        · rintro ⟨hm, hq⟩
          exact ⟨Or.inr hm, hq⟩
        · rintro ⟨rfl | hm, q, hq1, hq2⟩
          · rw [h] at hq1
            cases hq1
            exact absurd hq2 hp
          · exact ⟨hm, q, hq1, hq2⟩

/-- A Deal built by the loop body relates its unit_price to its
per-pound flag and its price exactly as lines 118-122 do. -/
theorem extractDeal_unit_price {e : Element} {d : Deal}
    (h : extractDeal e = some d) :
    (d.is_per_lb = true → d.unit_price = some d.price) ∧
      (d.is_per_lb = false → d.unit_price = none) := by
  by_cases hr : appleRelated e
  · cases hq : parseDecimal e.price with
    | none => simp [extractDeal, hr, hq] at h
    | some q =>
      simp only [extractDeal, hr, Bool.not_true, Bool.false_eq_true,
        if_false, hq, Option.some.injEq] at h
      cases h
      cases hlb : perLb e <;> simp [hlb]
  · simp [extractDeal, hr] at h

/-- Deals returned by the Extractor all come from the loop body. -/
theorem mem_parse_apple_deals {m : Option Page} {d : Deal}
    (h : d ∈ parse_apple_deals m) :
    ∃ e : Element, extractDeal e = some d := by
  cases m with
  | none => simp [parse_apple_deals] at h
  | some page =>
    by_cases hc : page.content = ""
    · simp [parse_apple_deals, hc] at h
    · simp only [parse_apple_deals, if_neg hc, List.mem_filterMap] at h
      obtain ⟨e, _, he⟩ := h
      exact ⟨e, he⟩

/-! ### Claims -/

/-- Claim C1: the Filter returns exactly the subset of its input whose
unit_price is present and at most the threshold 1.50; a deal priced
exactly at the threshold is included.  The Filter is a plain function of
its input list, so purity and determinism hold by construction. -/
theorem C1_filter_exact_subset :
    (∀ (deals : List Deal) (d : Deal),
        d ∈ filter_qualifying_deals deals ↔
          d ∈ deals ∧ ∃ p, d.unit_price = some p ∧ p ≤ MIN_PRICE_PER_LB) ∧
      ∀ (deals : List Deal) (d : Deal), d ∈ deals →
        d.unit_price = some MIN_PRICE_PER_LB →
          d ∈ filter_qualifying_deals deals := by
  refine ⟨mem_filter_qualifying, fun deals d hm hp => ?_⟩
  exact (mem_filter_qualifying deals d).2 ⟨hm, MIN_PRICE_PER_LB, hp, le_refl _⟩

/-- Witness for C1 at a concrete boundary deal priced exactly 1.50. -/
theorem C1_filter_exact_subset_witness :
    (⟨"Boundary Apples", 3 / 2, "per lb", "", true, some (3 / 2)⟩ : Deal) ∈
        [(⟨"Boundary Apples", 3 / 2, "per lb", "", true, some (3 / 2)⟩ : Deal)] ∧
      (⟨"Boundary Apples", 3 / 2, "per lb", "", true, some (3 / 2)⟩ : Deal).unit_price =
        some MIN_PRICE_PER_LB ∧
      (⟨"Boundary Apples", 3 / 2, "per lb", "", true, some (3 / 2)⟩ : Deal) ∈
        filter_qualifying_deals
          [(⟨"Boundary Apples", 3 / 2, "per lb", "", true, some (3 / 2)⟩ : Deal)] :=
  ⟨List.mem_singleton.2 rfl, rfl,
    C1_filter_exact_subset.2 _ _ (List.mem_singleton.2 rfl) rfl⟩

/-- Claim C2: every Deal the Extractor produces has unit_price equal to
its parsed price when is_per_lb is true and no unit_price when is_per_lb
is false; and under that invariant the Filter excludes every deal whose
is_per_lb is false, whatever its price field holds. -/
theorem C2_extractor_invariant :
    (∀ (m : Option Page) (d : Deal), d ∈ parse_apple_deals m →
        (d.is_per_lb = true → d.unit_price = some d.price) ∧
          (d.is_per_lb = false → d.unit_price = none)) ∧
      ∀ deals : List Deal,
        (∀ d ∈ deals, d.is_per_lb = false → d.unit_price = none) →
          ∀ d ∈ deals, d.is_per_lb = false →
            d ∉ filter_qualifying_deals deals := by
  constructor
  · intro m d hd
    obtain ⟨e, he⟩ := mem_parse_apple_deals hd
    exact extractDeal_unit_price he
  · intro deals hinv d hd hlb hmem
    obtain ⟨-, p, hp, -⟩ := (mem_filter_qualifying deals d).1 hmem
    rw [hinv d hd hlb] at hp
    cases hp

/-- Witness for C2 at a concrete page whose juice tile yields a deal with
is_per_lb false; that deal is extracted yet excluded by the Filter. -/
theorem C2_extractor_invariant_witness :
    (⟨"Apple Juice", 3, "64oz bottle", "beverage", false, none⟩ : Deal) ∈
        parse_apple_deals
          (some ⟨"page", [⟨"Apple Juice", "3.00", "64oz bottle", "beverage"⟩]⟩) ∧
      ((⟨"Apple Juice", 3, "64oz bottle", "beverage", false, none⟩ : Deal).is_per_lb = true →
          (⟨"Apple Juice", 3, "64oz bottle", "beverage", false, none⟩ : Deal).unit_price =
            some (⟨"Apple Juice", 3, "64oz bottle", "beverage", false, none⟩ : Deal).price) ∧
      (⟨"Apple Juice", 3, "64oz bottle", "beverage", false, none⟩ : Deal) ∉
        filter_qualifying_deals
          (parse_apple_deals
            (some ⟨"page", [⟨"Apple Juice", "3.00", "64oz bottle", "beverage"⟩]⟩)) := by
  have hd2 :
      parse_apple_deals
          (some ⟨"page", [⟨"Apple Juice", "3.00", "64oz bottle", "beverage"⟩]⟩) =
        [⟨"Apple Juice", 3, "64oz bottle", "beverage", false, none⟩] := by
    with_unfolding_all rfl
  have hmem :
      (⟨"Apple Juice", 3, "64oz bottle", "beverage", false, none⟩ : Deal) ∈
        parse_apple_deals
          (some ⟨"page", [⟨"Apple Juice", "3.00", "64oz bottle", "beverage"⟩]⟩) := by
    rw [hd2]
    exact List.mem_singleton.2 rfl
  refine ⟨hmem, (C2_extractor_invariant.1 _ _ hmem).1, ?_⟩
  refine C2_extractor_invariant.2 _ ?_ _ hmem rfl
  intro d hd hlb
  rw [hd2, List.mem_singleton] at hd
  rw [hd]

/-- Claim C10: the Extractor returns the empty list on absent markup and
on the empty string, before looking at any product tile. -/
theorem C10_empty_input :
    parse_apple_deals none = [] ∧
      ∀ els : List Element, parse_apple_deals (some ⟨"", els⟩) = [] :=
  ⟨rfl, fun _ => by simp [parse_apple_deals]⟩

/-- Claim C3 as stated is false: it says the Extractor skips an element
if and only if its name and category both lack the substring apple
case-insensitively, but an apple-named element whose price attribute does
not parse as a decimal is also skipped.  Concrete counterexample: the
element named Gala Apples with price attribute not-a-number is skipped
although its name contains apple. -/
theorem C3_counterexample :
    ¬ ∀ e : Element, extractDeal e = none ↔ appleRelated e = false := by
  intro h
  have h1 : extractDeal ⟨"Gala Apples", "not-a-number", "per lb", ""⟩ = none := by
    with_unfolding_all rfl
  have h2 : appleRelated ⟨"Gala Apples", "not-a-number", "per lb", ""⟩ = true := by
    with_unfolding_all rfl
  have h3 := (h ⟨"Gala Apples", "not-a-number", "per lb", ""⟩).1 h1
  rw [h2] at h3
  cases h3

/-- Claim C3 amended: an element whose name (with plus signs decoded to
spaces) and category both lack apple case-insensitively is always
skipped, and among elements whose price attribute parses as a decimal
this is the only reason to skip; elements with an unparseable price are
also skipped.  For the two-element scenario (Gala Apples at 1.20 per lb;
Apple Juice at 3.00, 64oz bottle, category beverage) the Extractor
returns exactly 2 deals and the Filter returns exactly 1, the Gala
Apples deal with unit price 1.20. -/
theorem C3_relevance_and_scenario :
    (∀ e : Element, appleRelated e = false → extractDeal e = none) ∧
      (∀ e : Element, parseDecimal e.price ≠ none →
        (extractDeal e = none ↔ appleRelated e = false)) ∧
      parse_apple_deals
          (some ⟨"<html>",
            [⟨"Gala Apples", "1.20", "per lb", ""⟩,
              ⟨"Apple Juice", "3.00", "64oz bottle", "beverage"⟩]⟩) =
        [⟨"Gala Apples", 1.20, "per lb", "", true, some 1.20⟩,
          ⟨"Apple Juice", 3.00, "64oz bottle", "beverage", false, none⟩] ∧
      filter_qualifying_deals
          (parse_apple_deals
            (some ⟨"<html>",
              [⟨"Gala Apples", "1.20", "per lb", ""⟩,
                ⟨"Apple Juice", "3.00", "64oz bottle", "beverage"⟩]⟩)) =
        [⟨"Gala Apples", 1.20, "per lb", "", true, some 1.20⟩] := by
  refine ⟨fun e hr => by simp [extractDeal, hr], fun e hp => ?_, ?_, ?_⟩
  · constructor
    · intro h
      by_cases hr : appleRelated e
      · cases hq : parseDecimal e.price with
        | none => exact absurd hq hp
        | some q => simp [extractDeal, hr, hq] at h
      · exact eq_false_of_ne_true hr
    · intro hr
      simp [extractDeal, hr]
  · with_unfolding_all rfl
  · with_unfolding_all rfl

/-- Witness for C3's amended theorem at a concrete element with a
parseable price. -/
theorem C3_relevance_and_scenario_witness :
    parseDecimal (⟨"Honeycrisp Apples", "2.75", "per lb", ""⟩ : Element).price ≠ none ∧
      (extractDeal ⟨"Honeycrisp Apples", "2.75", "per lb", ""⟩ = none ↔
        appleRelated ⟨"Honeycrisp Apples", "2.75", "per lb", ""⟩ = false) := by
  have hp : parseDecimal (⟨"Honeycrisp Apples", "2.75", "per lb", ""⟩ : Element).price ≠ none := by
    intro h
    rw [show parseDecimal (⟨"Honeycrisp Apples", "2.75", "per lb", ""⟩ : Element).price =
        some (11 / 4) from by with_unfolding_all rfl] at h
    cases h
  exact ⟨hp, C3_relevance_and_scenario.2.1 _ hp⟩

/-- Claim C6: an element whose price attribute fails to parse as a
decimal is skipped (no exception is modelled: every function of the
embedding is total, mirroring the per-element try/except on lines
100-135), and removing any skipped element from the tile list leaves the
Extractor's output unchanged, so one bad element never disturbs the
extraction of the rest. -/
theorem C6_bad_element_isolated :
    (∀ e : Element, parseDecimal e.price = none → extractDeal e = none) ∧
      ∀ (c : String) (l1 : List Element) (e : Element) (l2 : List Element),
        extractDeal e = none →
          parse_apple_deals (some ⟨c, l1 ++ e :: l2⟩) =
            parse_apple_deals (some ⟨c, l1 ++ l2⟩) := by
  constructor
  · intro e hp
    by_cases hr : appleRelated e <;> simp [extractDeal, hr, hp]
  · intro c l1 e l2 he
    by_cases hc : c = ""
    · simp [parse_apple_deals, hc]
    · simp [parse_apple_deals, hc, List.filterMap_append, he]

/-- Witness for C6: the bad-price tile is dropped while the Gala tile
around it is still extracted. -/
theorem C6_bad_element_isolated_witness :
    parseDecimal (⟨"Fuji Apples", "oops", "per lb", ""⟩ : Element).price = none ∧
      extractDeal ⟨"Fuji Apples", "oops", "per lb", ""⟩ = none ∧
      parse_apple_deals
          (some ⟨"<html>",
            [⟨"Gala Apples", "1.20", "per lb", ""⟩] ++
              (⟨"Fuji Apples", "oops", "per lb", ""⟩ : Element) ::
                [⟨"Empire Apples", "1.10", "per lb", ""⟩]⟩) =
        parse_apple_deals
          (some ⟨"<html>",
            [⟨"Gala Apples", "1.20", "per lb", ""⟩] ++
              [⟨"Empire Apples", "1.10", "per lb", ""⟩]⟩) := by
  have hp : parseDecimal (⟨"Fuji Apples", "oops", "per lb", ""⟩ : Element).price = none := by
    with_unfolding_all rfl
  have he := C6_bad_element_isolated.1 _ hp
  exact ⟨hp, he, C6_bad_element_isolated.2 "<html>" _ _ _ he⟩

/-- Claim C7: with an absent (or empty) credential the Notifier skips the
send and returns false without crashing, and a transport failure anywhere
in the compose/connect/auth/send sequence is reported as false to the
caller; the embedding is total, mirroring the try/except on lines 160-189
that converts every exception into the boolean result. -/
theorem C7_notifier_failures :
    ∀ (pw : Option String) (ok : Bool) (deals : List Deal) (ts : String),
      (pwFalsy pw = true → send_alert_email pw ok deals ts = (false, none)) ∧
        (ok = false → (send_alert_email pw ok deals ts).1 = false) := by
  intro pw ok deals ts
  constructor
  · intro h
    simp [send_alert_email, h]
  · intro h
    subst h
    by_cases hp : pwFalsy pw <;> simp [send_alert_email, hp]

/-- Witness for C7: missing credential, and transport failure with a
credential present. -/
theorem C7_notifier_failures_witness :
    pwFalsy none = true ∧
      send_alert_email none true [] "ts" = (false, none) ∧
      (send_alert_email (some "secret") false [] "ts").1 = false :=
  ⟨rfl, (C7_notifier_failures none true [] "ts").1 rfl,
    (C7_notifier_failures (some "secret") false [] "ts").2 rfl⟩

/-- When every remaining attempt fails, the retry loop exhausts its fuel
and reports no content, having made one attempt per loop iteration. -/
theorem fetchLoop_all_none (o : Nat → Option Page) :
    ∀ (fuel attempt : Nat),
      (∀ i, attempt ≤ i → i < attempt + fuel → o i = none) →
        fetchLoop o attempt fuel = (none, attempt + fuel) := by
  intro fuel
  induction fuel with
  | zero => intro attempt _; rfl
  | succ n ih =>
    intro attempt h
    have h0 : o attempt = none := h attempt (le_refl _) (by omega)
    have h1 : fetchLoop o (attempt + 1) n = (none, attempt + 1 + n) :=
      ih (attempt + 1) fun i hi1 hi2 => h i (by omega) (by omega)
    simp only [fetchLoop, h0, h1]
    congr 1
    omega

/-- When attempt k is the first to succeed, the retry loop returns that
attempt's page at once, after k + 1 attempts. -/
theorem fetchLoop_first_success (o : Nat → Option Page) :
    ∀ (fuel attempt k : Nat) (p : Page), attempt ≤ k → k < attempt + fuel →
      o k = some p → (∀ i, attempt ≤ i → i < k → o i = none) →
        fetchLoop o attempt fuel = (some p, k + 1) := by
  intro fuel
  induction fuel with
  | zero => intro attempt k p h1 h2; omega
  | succ n ih =>
    intro attempt k p h1 h2 hk hbefore
    rcases Nat.eq_or_lt_of_le h1 with rfl | hlt
    · simp only [fetchLoop, hk]
    · have h0 : o attempt = none := hbefore attempt (le_refl _) hlt
      have h3 := ih (attempt + 1) k p (by omega) (by omega) hk
        fun i hi1 hi2 => hbefore i (by omega) hi2
      simp only [fetchLoop, h0, h3]

/-- Whatever the loop returns is either no content or the page of some
attempt it made. -/
theorem fetchLoop_characterise (o : Nat → Option Page) :
    ∀ (fuel attempt : Nat),
      (fetchLoop o attempt fuel).1 = none ∨
        ∃ k, attempt ≤ k ∧ k < attempt + fuel ∧ ∃ p, o k = some p ∧
          (fetchLoop o attempt fuel).1 = some p := by
  intro fuel
  induction fuel with
  | zero => intro attempt; exact Or.inl rfl
  | succ n ih =>
    intro attempt
    cases h0 : o attempt with
    | some p =>
      refine Or.inr ⟨attempt, le_refl _, by omega, p, h0, ?_⟩
      simp only [fetchLoop, h0]
    | none =>
      rcases ih (attempt + 1) with h | ⟨k, hk1, hk2, p, hk3, hk4⟩
      · left
        simpa only [fetchLoop, h0] using h
      · refine Or.inr ⟨k, by omega, by omega, p, hk3, ?_⟩
        simpa only [fetchLoop, h0] using hk4

/-- Claim C4: the Fetcher makes exactly max_retries = 3 attempts before
reporting absence, stops retrying as soon as an attempt succeeds
(returning that attempt's text after k + 1 attempts), and always returns
either the text of a successful attempt or none — the embedding is
total, mirroring the try/except that converts every transport error into
a retry or the final None. -/
theorem C4_fetcher_retry :
    ∀ o : Nat → Option Page,
      ((∀ i, i < max_retries → o i = none) →
          search_hannaford_apples o = none ∧ fetchAttempts o = max_retries) ∧
        (∀ (k : Nat) (p : Page), k < max_retries → o k = some p →
          (∀ i, i < k → o i = none) →
            search_hannaford_apples o = some p ∧ fetchAttempts o = k + 1) ∧
        (search_hannaford_apples o = none ∨
          ∃ k, k < max_retries ∧ ∃ p, o k = some p ∧
            search_hannaford_apples o = some p) := by
  intro o
  refine ⟨?_, ?_, ?_⟩
  · intro h
    have := fetchLoop_all_none o max_retries 0 fun i _ hi => h i (by omega)
    constructor
    · simp [search_hannaford_apples, this]
    · simp [fetchAttempts, this]
  · intro k p hk hsucc hbefore
    have := fetchLoop_first_success o max_retries 0 k p (Nat.zero_le _) (by omega)
      hsucc fun i _ hi => hbefore i hi
    constructor
    · simp [search_hannaford_apples, this]
    · simp [fetchAttempts, this]
  · rcases fetchLoop_characterise o max_retries 0 with h | ⟨k, _, hk2, p, hk3, hk4⟩
    · exact Or.inl h
    · exact Or.inr ⟨k, by omega, p, hk3, hk4⟩

/-- Witness for C4: an oracle failing on attempt 0 and succeeding on
attempt 1 yields that attempt's page after exactly 2 attempts; an
always-failing oracle yields none after exactly 3 attempts. -/
theorem C4_fetcher_retry_witness :
    ((1 : Nat) < max_retries ∧
      (fun i => if i = 1 then some (⟨"page", []⟩ : Page) else none) 1 =
        some (⟨"page", []⟩ : Page) ∧
      search_hannaford_apples
          (fun i => if i = 1 then some (⟨"page", []⟩ : Page) else none) =
        some ⟨"page", []⟩ ∧
      fetchAttempts (fun i => if i = 1 then some (⟨"page", []⟩ : Page) else none) = 2) ∧
      search_hannaford_apples (fun _ => (none : Option Page)) = none ∧
      fetchAttempts (fun _ => (none : Option Page)) = max_retries := by
  have h1 := ((C4_fetcher_retry fun i => if i = 1 then some (⟨"page", []⟩ : Page)
    else none).2.1) 1 ⟨"page", []⟩ (by decide) (by decide)
    (fun i hi => by interval_cases i; rfl)
  have h2 := (C4_fetcher_retry fun _ => (none : Option Page)).1 fun i _ => rfl
  exact ⟨⟨by decide, rfl, h1.1, h1.2⟩, h2.1, h2.2⟩

/-- Claim C9: the season gate returns true exactly when the given
wall-clock month lies in SEASON_MONTHS = [8, 9, 10]; and since seasonal
gating is enabled (ONLY_IN_SEASON is true), a run in any out-of-season
month — July included — exits with code 0 having made no network attempt
and sent nothing. -/
theorem C9_season_gate :
    (∀ m : Nat, in_season m = true ↔ m ∈ SEASON_MONTHS) ∧
      ∀ w : World, in_season w.month = false → main w = ⟨0, 0, false⟩ := by
  constructor
  · intro m
    simp [in_season, List.contains_iff_exists_mem_beq, beq_iff_eq, eq_comm]
  · intro w h
    simp [main, ONLY_IN_SEASON, h]

/-- Witness for C9 at July (month 7) with an oracle that would succeed if
consulted: the gate short-circuits first. -/
theorem C9_season_gate_witness :
    in_season 7 = false ∧
      main ⟨7, fun _ => some ⟨"page", []⟩, some "secret", true, "ts"⟩ = ⟨0, 0, false⟩ :=
  ⟨rfl, C9_season_gate.2 ⟨7, fun _ => some ⟨"page", []⟩, some "secret", true, "ts"⟩ rfl⟩

/-- Claim C5: exit code 0 for out of season, for no qualifying deals, and
for normal completion after attempting the send; exit code 1 for a failed
fetch (no content) and for no extracted products; and the SMTP transport
outcome never changes the exit code — a run that found qualifying deals
exits 0 even when the send fails. -/
theorem C5_exit_codes (w : World) :
    ((ONLY_IN_SEASON && !in_season w.month) = true → (main w).exitCode = 0) ∧
      ((ONLY_IN_SEASON && !in_season w.month) = false →
        pageFalsy (search_hannaford_apples w.fetchOutcomes) = true →
          (main w).exitCode = 1) ∧
      ((ONLY_IN_SEASON && !in_season w.month) = false →
        pageFalsy (search_hannaford_apples w.fetchOutcomes) = false →
          parse_apple_deals (search_hannaford_apples w.fetchOutcomes) = [] →
            (main w).exitCode = 1) ∧
      ((ONLY_IN_SEASON && !in_season w.month) = false →
        pageFalsy (search_hannaford_apples w.fetchOutcomes) = false →
          parse_apple_deals (search_hannaford_apples w.fetchOutcomes) ≠ [] →
            filter_qualifying_deals
                (parse_apple_deals (search_hannaford_apples w.fetchOutcomes)) = [] →
              (main w).exitCode = 0) ∧
      ((ONLY_IN_SEASON && !in_season w.month) = false →
        pageFalsy (search_hannaford_apples w.fetchOutcomes) = false →
          filter_qualifying_deals
              (parse_apple_deals (search_hannaford_apples w.fetchOutcomes)) ≠ [] →
            (main w).exitCode = 0) ∧
      (main ⟨w.month, w.fetchOutcomes, w.smtpPassword, false, w.ts⟩).exitCode =
        (main w).exitCode := by
  refine ⟨?_, ?_, ?_, ?_, ?_, ?_⟩
  · intro h
    simp [main, h]
  · intro h hf
    simp [main, h, hf]
  · intro h hf hd
    simp [main, h, hf, hd]
  · intro h hf hd hq
    simp [main, h, hf, List.isEmpty_iff, hd, hq]
  · intro h hf hq
    have hd : parse_apple_deals (search_hannaford_apples w.fetchOutcomes) ≠ [] := by
      intro h0
      exact hq (by rw [h0]; rfl)
    simp [main, h, hf, List.isEmpty_iff, hd, hq]
  · cases h1 : (ONLY_IN_SEASON && !in_season w.month) with
    | true => simp [main, h1]
    | false =>
      cases h2 : pageFalsy (search_hannaford_apples w.fetchOutcomes) with
      | true => simp [main, h1, h2]
      | false =>
        cases h3 :
            (parse_apple_deals (search_hannaford_apples w.fetchOutcomes)).isEmpty with
        | true => simp [main, h1, h2, h3]
        | false =>
          cases h4 :
              (filter_qualifying_deals
                (parse_apple_deals (search_hannaford_apples w.fetchOutcomes))).isEmpty with
          | true => simp [main, h1, h2, h3, h4]
          | false => simp [main, h1, h2, h3, h4]

/-- Witness for C5: in September, an always-failing fetch exits 1; a
successful fetch of one qualifying Gala tile exits 0 even though the
credential is present and the SMTP transport fails. -/
theorem C5_exit_codes_witness :
    ((ONLY_IN_SEASON && !in_season 9) = false ∧
      pageFalsy (search_hannaford_apples fun _ => none) = true ∧
      (main ⟨9, fun _ => none, none, false, "ts"⟩).exitCode = 1) ∧
      (pageFalsy
          (search_hannaford_apples fun _ =>
            some ⟨"<html>", [⟨"Gala Apples", "1.20", "per lb", ""⟩]⟩) = false ∧
        filter_qualifying_deals
            (parse_apple_deals
              (search_hannaford_apples fun _ =>
                some ⟨"<html>", [⟨"Gala Apples", "1.20", "per lb", ""⟩]⟩)) ≠ [] ∧
        (main ⟨9, fun _ => some ⟨"<html>", [⟨"Gala Apples", "1.20", "per lb", ""⟩]⟩,
          some "secret", false, "ts"⟩).exitCode = 0) := by
  have hfilter :
      filter_qualifying_deals
          (parse_apple_deals
            (search_hannaford_apples fun _ =>
              some ⟨"<html>", [⟨"Gala Apples", "1.20", "per lb", ""⟩]⟩)) =
        [⟨"Gala Apples", 1.20, "per lb", "", true, some 1.20⟩] := by
    with_unfolding_all rfl
  have hne :
      filter_qualifying_deals
          (parse_apple_deals
            (search_hannaford_apples fun _ =>
              some ⟨"<html>", [⟨"Gala Apples", "1.20", "per lb", ""⟩]⟩)) ≠ [] := by
    rw [hfilter]
    exact List.cons_ne_nil _ _
  refine ⟨⟨rfl, rfl, ?_⟩, ⟨rfl, hne, ?_⟩⟩
  · exact (C5_exit_codes ⟨9, fun _ => none, none, false, "ts"⟩).2.1 rfl rfl
  · exact (C5_exit_codes ⟨9, fun _ =>
      some ⟨"<html>", [⟨"Gala Apples", "1.20", "per lb", ""⟩]⟩,
      some "secret", false, "ts"⟩).2.2.2.2.1 rfl rfl hne

/-- dealLE is transitive. -/
theorem dealLE_trans : ∀ a b c : Deal, dealLE a b → dealLE b c → dealLE a c := by
  intro a b c hab hbc
  simp only [dealLE, decide_eq_true_eq] at *
  exact le_trans hab hbc

/-- dealLE is total. -/
theorem dealLE_total : ∀ a b : Deal, dealLE a b || dealLE b a := by
  intro a b
  simp only [dealLE, Bool.or_eq_true, decide_eq_true_eq]
  exact le_total _ _

/-- The concatenation of the per-deal body lines, in list order. -/
def linesOf : List Deal → String
  | [] => ""
  | d :: rest => dealLine d ++ linesOf rest

/-- The body accumulation loop of lines 169-170 appends one line per deal
in list order after the accumulator. -/
theorem foldl_dealLine : ∀ (l : List Deal) (a : String),
    l.foldl (fun b d => b ++ dealLine d) a = a ++ linesOf l := by
  intro l
  induction l with
  | nil =>
    intro a
    simp [linesOf]
  | cons d rest ih =>
    intro a
    simp only [List.foldl_cons, linesOf, ih, String.append_assoc]

/-- Claim C8: for a non-empty list of qualifying deals, the subject
string contains the deal count, and the body is the fixed intro followed
by one line per deal — price, name and variant — in ascending unit-price
order (the sort permutes the input and its output is sorted by unit
price), followed by the outro carrying the timestamp. -/
theorem C8_email_format (deals : List Deal) (ts : String)
    (hne : deals ≠ []) (hq : ∀ d ∈ deals, d.unit_price ≠ none) :
    (∃ pre post, composeSubject deals = pre ++ toString deals.length ++ post) ∧
      (sortDeals deals).Perm deals ∧
      (sortDeals deals).Pairwise
        (fun a b => a.unit_price.getD 0 ≤ b.unit_price.getD 0) ∧
      composeBody deals ts = bodyIntro ++ linesOf (sortDeals deals) ++ bodyOutro ts := by
  refine ⟨⟨"🍎 Apple Deal Alert - ", " deal(s) found!", rfl⟩,
    List.mergeSort_perm deals dealLE, ?_, ?_⟩
  · have h := List.sorted_mergeSort dealLE_trans dealLE_total deals
    exact h.imp fun hab => of_decide_eq_true hab
  · unfold composeBody
    rw [foldl_dealLine]

/-- Witness for C8 at the three unit prices 1.45, 1.20, 1.50 given out of
order: the sorted body line order is ascending, so 1.20 precedes 1.45
precedes 1.50. -/
theorem C8_email_format_witness :
    ([⟨"Fuji Apples", 1.45, "per lb", "", true, some 1.45⟩,
        ⟨"Gala Apples", 1.20, "per lb", "", true, some 1.20⟩,
        ⟨"McIntosh Apples", 1.50, "per lb", "", true, some 1.50⟩] : List Deal) ≠ [] ∧
      (∀ d ∈ ([⟨"Fuji Apples", 1.45, "per lb", "", true, some 1.45⟩,
          ⟨"Gala Apples", 1.20, "per lb", "", true, some 1.20⟩,
          ⟨"McIntosh Apples", 1.50, "per lb", "", true, some 1.50⟩] : List Deal),
        d.unit_price ≠ none) ∧
      (sortDeals [⟨"Fuji Apples", 1.45, "per lb", "", true, some 1.45⟩,
          ⟨"Gala Apples", 1.20, "per lb", "", true, some 1.20⟩,
          ⟨"McIntosh Apples", 1.50, "per lb", "", true, some 1.50⟩]).Pairwise
        (fun a b => a.unit_price.getD 0 ≤ b.unit_price.getD 0) ∧
      composeBody [⟨"Fuji Apples", 1.45, "per lb", "", true, some 1.45⟩,
          ⟨"Gala Apples", 1.20, "per lb", "", true, some 1.20⟩,
          ⟨"McIntosh Apples", 1.50, "per lb", "", true, some 1.50⟩] "2025-10-12 08:00:00" =
        bodyIntro ++
          linesOf (sortDeals [⟨"Fuji Apples", 1.45, "per lb", "", true, some 1.45⟩,
            ⟨"Gala Apples", 1.20, "per lb", "", true, some 1.20⟩,
            ⟨"McIntosh Apples", 1.50, "per lb", "", true, some 1.50⟩]) ++
          bodyOutro "2025-10-12 08:00:00" := by
  have h := C8_email_format
    [⟨"Fuji Apples", 1.45, "per lb", "", true, some 1.45⟩,
      ⟨"Gala Apples", 1.20, "per lb", "", true, some 1.20⟩,
      ⟨"McIntosh Apples", 1.50, "per lb", "", true, some 1.50⟩]
    "2025-10-12 08:00:00" (by decide) (by decide)
  exact ⟨by decide, by decide, h.2.2.1, h.2.2.2⟩

end AppleAlert
